import Mathlib

/-!
Verification of the blackjack Series computation engine.

The Rust sources embedded here are `src/series/mod.rs` (the `DataElement`
based `Series` container with its aggregation, coercion, append and raw
pointer operations) and `src/series/rolling.rs` (the rolling window engine
over a numeric series).

Modelling conventions:
* IEEE f64 values are modelled by `Float64`: a rational payload or the NaN
  marker.  The infinities are collapsed into `nan`; no claim below ever
  distinguishes an infinity from NaN, and the only division by zero any
  claim reaches is `0/0`, which is NaN in IEEE as well.
* Machine integers (`i32`, `i64`) are modelled as unbounded `Int`; no claim
  exercises overflow.
* Rust `Result` is modelled by `Except String`, `Option` by `Option`, a
  panic by `Option.none` of the constructing function.
-/

/-- Model of an IEEE f64: either a rational value or NaN (infinities are
collapsed into `nan`; see the module comment). -/
inductive Float64 where
  | num (q : ℚ)
  | nan
deriving DecidableEq

/-- IEEE `is_nan` test on the float model. -/
def Float64.isNan : Float64 → Bool
  | .nan => true
  | .num _ => false

/-- IEEE f64 addition on the model: NaN is absorbing, finite values add
exactly (rounding is not modelled; no claim depends on it). -/
def fadd : Float64 → Float64 → Float64
  | .num a, .num b => .num (a + b)
  | _, _ => .nan

/-- IEEE f64 division on the model: a zero divisor yields `nan` (in IEEE,
`0/0` is NaN and `x/0` is an infinity; both are collapsed into `nan`). -/
def fdiv : Float64 → Float64 → Float64
  | .num a, .num b => if b = 0 then .nan else .num (a / b)
  | _, _ => .nan

/-- IEEE partial equality on the float model, as Rust's derived `PartialEq`
sees `f64`: NaN compares unequal to everything, itself included. -/
def Float64.peq : Float64 → Float64 → Bool
  | .num a, .num b => a == b
  | _, _ => false

instance : Zero Float64 := ⟨.num 0⟩

instance : Add Float64 := ⟨fadd⟩

theorem float64_zero_def : (0 : Float64) = Float64.num 0 := rfl

theorem float64_add_def (a b : Float64) : a + b = fadd a b := rfl

instance : AddMonoid Float64 where
  nsmul := nsmulRec
  add_assoc a b c := by
    cases a <;> cases b <;> cases c <;>
      simp [float64_add_def, fadd, add_assoc]
  zero_add a := by
    cases a <;> simp [float64_zero_def, float64_add_def, fadd]
  add_zero a := by
    cases a <;> simp [float64_zero_def, float64_add_def, fadd]

/-- The type tag enumeration `DType` of the value model (declared in the
crate's prelude, mirrored from the spec's Data Model section). -/
inductive DType where
  | I64
  | F64
  | I32
  | F32
  | STRING
  | None
deriving DecidableEq

/-- The tagged element type `DataElement` of the value model (declared in
the crate's prelude, mirrored from the spec's Data Model section): exactly
one variant is active, floats may hold NaN, `None` is the missing marker. -/
inductive DataElement where
  | I64 (v : Int)
  | F64 (v : Float64)
  | I32 (v : Int)
  | F32 (v : Float64)
  | STRING (s : String)
  | None
deriving DecidableEq

/-- Natural type tag of a `DataElement`. -/
def DataElement.dtype : DataElement → DType
  | .I64 _ => DType.I64
  | .F64 _ => DType.F64
  | .I32 _ => DType.I32
  | .F32 _ => DType.F32
  | .STRING _ => DType.STRING
  | .None => DType.None

/-- NaN query of the value model: true only for a floating NaN, false for
the missing marker and every other variant (spec section 4.1). -/
def DataElement.is_nan : DataElement → Bool
  | .F64 v => v.isNan
  | .F32 v => v.isNan
  | _ => false

/-- Truncation of a rational toward zero, the semantics of Rust's
`float as int` cast on in-range values. -/
def qtrunc (q : ℚ) : Int :=
  if 0 ≤ q then ⌊q⌋ else ⌈q⌉

/-- Modelled from the spec: the value model's conversion of a `DataElement`
into an `f64` (the `From<DataElement> for f64` impl is not under `src/`).
Numeric casts are exact in the model; text converts to NaN (the source
documents text to float as NaN when unparsable, and no claim inspects the
converted value of parsable text); the missing marker converts to NaN. -/
def toF64 : DataElement → Float64
  | .I64 v => .num v
  | .F64 v => v
  | .I32 v => .num v
  | .F32 v => v
  | .STRING _ => .nan
  | .None => .nan

/-- Modelled from the spec: the value model's conversion of a `DataElement`
into an `i64`/`i32` (lossy narrowing, float to int truncates; the impl is
not under `src/`).  Text and the missing marker map to 0; in `astype` these
cases are guarded before the conversion is reached. -/
def toI64 : DataElement → Int
  | .I64 v => v
  | .I32 v => v
  | .F64 (.num q) => qtrunc q
  | .F64 .nan => 0
  | .F32 (.num q) => qtrunc q
  | .F32 .nan => 0
  | .STRING _ => 0
  | .None => 0

/-- Modelled from the spec: the value model's conversion of a `DataElement`
into text (anything formats to text; the impl is not under `src/`).  The
exact digit strings are irrelevant to every claim. -/
def toStringEl : DataElement → String
  | .I64 v => toString v
  | .I32 v => toString v
  | .F64 (.num q) => toString q
  | .F64 .nan => "NaN"
  | .F32 (.num q) => toString q
  | .F32 .nan => "NaN"
  | .STRING s => s
  | .None => "None"

/-- Rust's derived `PartialEq` on `DataElement`: same variant and equal
payload, with the IEEE rule on the float payloads (NaN unequal to NaN). -/
def DataElement.peq : DataElement → DataElement → Bool
  | .I64 a, .I64 b => a == b
  | .F64 a, .F64 b => Float64.peq a b
  | .I32 a, .I32 b => a == b
  | .F32 a, .F32 b => Float64.peq a b
  | .STRING a, .STRING b => a == b
  | .None, .None => true
  | _, _ => false

/-- The `Series` struct of `src/series/mod.rs`: optional name, the element
vector, and the cached dtype (set only by `astype` or homogeneous
construction). -/
structure Series where
  name : Option String
  values : List DataElement
  dtype : Option DType
deriving DecidableEq

/-- Elementwise Rust `PartialEq` on the element vectors (what the derived
`PartialEq` of `Vec<DataElement>` computes). -/
def listPeq : List DataElement → List DataElement → Bool
  | [], [] => true
  | x :: xs, y :: ys => DataElement.peq x y && listPeq xs ys
  | _, _ => false

/-- Rust's derived `PartialEq` on `Series` (`#[derive(PartialEq)]` in
`mod.rs` line 35): it compares every field, the name and the cached dtype
included, not the element vector alone. -/
def Series.peq (a b : Series) : Bool :=
  (a.name == b.name) && listPeq a.values b.values && (a.dtype == b.dtype)

/-- Length query `Series::len` (`mod.rs` line 333). -/
def Series.len (s : Series) : Nat := s.values.length

/-- Dtype query `Series::dtype` (`mod.rs` lines 341..343): the cached tag. -/
def Series.dtypeQ (s : Series) : Option DType := s.dtype

/-- Per element conversion step of `Series::astype` (`mod.rs` lines
358..377): the match on the target dtype.  Integer targets reject text and
NaN with the source's error string; every other target converts. -/
def convertElem (d : DType) (v : DataElement) : Except String DataElement :=
  match d with
  | DType.F64 => Except.ok (DataElement.F64 (toF64 v))
  | DType.I64 =>
      if (v.dtype == DType.STRING) || v.is_nan then
        Except.error "Cannot convert Float NaN to Integer type"
      else
        Except.ok (DataElement.I64 (toI64 v))
  | DType.F32 => Except.ok (DataElement.F32 (toF64 v))
  | DType.I32 =>
      if (v.dtype == DType.STRING) || v.is_nan then
        Except.error "Cannot convert Float NaN to Integer type"
      else
        Except.ok (DataElement.I32 (toI64 v))
  | DType.STRING => Except.ok (DataElement.STRING (toStringEl v))
  | DType.None => Except.ok DataElement.None

/-- The in place loop of `Series::astype` (`mod.rs` lines 355..378): visit
the elements left to right, replacing each by its conversion; on the first
failing element stop, leaving the already visited prefix converted and the
failing element with the rest untouched.  Returns the resulting vector and
the error, if any. -/
def astypeGo (d : DType) : List DataElement → List DataElement × Option String
  | [] => ([], Option.none)
  | v :: rest =>
      match convertElem d v with
      | Except.ok w =>
          let r := astypeGo d rest
          (w :: r.1, r.2)
      | Except.error msg => (v :: rest, some msg)

/-- `Series::astype` (`mod.rs` lines 352..384): run the conversion loop on
the stored vector; an error mid loop returns early with the vector partially
mutated and the cached dtype untouched; on full success the cached dtype is
set to the target.  Returns the post state of the series and the error. -/
def Series.astype (s : Series) (d : DType) : Series × Option String :=
  let r := astypeGo d s.values
  match r.2 with
  | Option.none =>
      ({ name := s.name, values := r.1, dtype := some d }, Option.none)
  | some msg => ({ s with values := r.1 }, some msg)

/-- `Series::sum` (`mod.rs` lines 258..267): filter out string dtype
elements and NaNs, convert each survivor to the target numeric type, fold
with addition (Rust's `Iterator::sum`, a left fold from zero). -/
def Series.sum {α : Type} [Zero α] [Add α] (conv : DataElement → α)
    (s : Series) : α :=
  ((((s.values.filter (fun v => !(v.dtype == DType.STRING))).filter
      (fun v => !v.is_nan)).map conv).foldl (· + ·) 0)

/-- `Series::mean` (`mod.rs` lines 289..294): the f64 sum divided by the
length, always returned as `Ok` — the function never produces an error. -/
def Series.mean (s : Series) : Except String Float64 :=
  let total : Float64 := Series.sum toF64 s
  let count : Float64 := Float64.num (s.len : ℚ)
  Except.ok (fdiv total count)

/-- `Series::min` (`mod.rs` lines 307..316): convert every element to the
target `Ord` type, take the iterator minimum, error when empty. -/
def Series.min (conv : DataElement → Int) (s : Series) : Except String Int :=
  match (s.values.map conv).min? with
  | some m => Except.ok m
  | Option.none =>
      Except.error "Unable to find minimum of values, perhaps values is empty?"

/-- `Series::max` (`mod.rs` lines 320..330): convert every element to the
target `Ord` type, take the iterator maximum, error when empty. -/
def Series.max (conv : DataElement → Int) (s : Series) : Except String Int :=
  match (s.values.map conv).max? with
  | some m => Except.ok m
  | Option.none =>
      Except.error "Unable to find maximum of values, perhaps values is empty?"

/-- `Series::append` (`mod.rs` lines 398..400): push the new element onto
the end of the vector; nothing else is touched. -/
def Series.append (s : Series) (v : DataElement) : Series :=
  { s with values := s.values ++ [v] }

/-- The opaque handle produced by `Series::into_raw`: a boxed series whose
address is handed to foreign managed memory.  The box's content is the
series itself. -/
structure RawSeriesPtr where
  boxed : Series
deriving DecidableEq

/-- `Series::into_raw` (`mod.rs` lines 404..406): `Box::into_raw(Box::new(self))`,
moving the series into the box behind the raw pointer. -/
def Series.into_raw (s : Series) : RawSeriesPtr := ⟨s⟩

/-- `Series::from_raw` (`mod.rs` lines 409..411): `*Box::from_raw(ptr)`,
moving the series back out of the box. -/
def Series.from_raw (p : RawSeriesPtr) : Series := p.boxed

/-!
The rolling window engine of `src/series/rolling.rs`.  That file works on
the crate's generic numeric `Series<T>` whose `values` field is a plain
`Vec<T>` of numbers; the engine is embedded here over `List ℚ`, the model
of that vector.  The helper aggregates `funcs::variance`, `funcs::std`,
`funcs::min`, `funcs::max` and `stats::median` are code of the repository
that is not under `src/`; they are modelled from the spec below.
-/

/-- The `Rolling` struct (`rolling.rs` lines 35..42): window size, the
borrowed source values, and the precomputed NaN padding. -/
structure Rolling where
  window : Nat
  series : List ℚ
  nans : List Float64
deriving DecidableEq

/-- `Rolling::new` (`rolling.rs` lines 59..66).  The padding is built from
the iterator `0..window - 1` over `usize`: when `window = 0` the
subtraction underflows and the construction panics (Rust's overflow check),
modelled as `Option.none`; otherwise the padding is `window - 1` NaNs. -/
def Rolling.new (window : Nat) (series : List ℚ) : Option Rolling :=
  if window = 0 then Option.none
  else some { window := window, series := series,
              nans := List.replicate (window - 1) Float64.nan }

/-- The window slices visited by every rolling method (`rolling.rs`, the
range `0..len + 1 - window` with slice `values[idx..idx + window]`). -/
def windows (w : Nat) (xs : List ℚ) : List (List ℚ) :=
  (List.range (xs.length + 1 - w)).map (fun idx => (xs.drop idx).take w)

/-- Rust's `collect::<Result<Vec<_>, _>>()`: gather the per window results,
aborting on the first error. -/
def collectE {α : Type} : List (Except String α) → Except String (List α)
  | [] => Except.ok []
  | Except.error e :: _ => Except.error e
  | Except.ok x :: rest => (collectE rest).map (fun ys => x :: ys)

/-- Modelled: `ToPrimitive::to_f64` on the rational model of the numeric
element type always succeeds. -/
def toF64q (q : ℚ) : Option ℚ := some q

/-- Per window body of `Rolling::sum` (`rolling.rs` lines 106..111):
`view.sum().to_f64()`, erroring when the cast fails. -/
def sumAgg (ys : List ℚ) : Except String Float64 :=
  match toF64q ys.sum with
  | some s => Except.ok (Float64.num s)
  | Option.none => Except.error "Unable to cast windowed sum to f64."

/-- Per window body of `Rolling::mean` (`rolling.rs` lines 81..86): the
window sum cast to f64 divided by the window length. -/
def meanAgg (ys : List ℚ) : Except String Float64 :=
  match toF64q ys.sum with
  | some d => Except.ok (fdiv (Float64.num d) (Float64.num (ys.length : ℚ)))
  | Option.none => Except.error "Unable to cast windowed sum to f64."

/-- Modelled from the spec: `funcs::variance` (not under `src/`), the
population/sample variance Σ(xᵢ−mean)²/(n−ddof); `None` on an empty
slice. -/
def funcsVariance (ys : List ℚ) (ddof : ℚ) : Option Float64 :=
  if ys.isEmpty then Option.none
  else
    let n : ℚ := ys.length
    let m : ℚ := ys.sum / n
    some (fdiv (Float64.num ((ys.map (fun x => (x - m) ^ 2)).sum))
               (Float64.num (n - ddof)))

/-- Square root on the float model: the monotone rational square root
approximation stands in for IEEE `sqrt` (both are exact on squares). -/
def fsqrt : Float64 → Float64
  | Float64.num q => Float64.num (Rat.sqrt q)
  | Float64.nan => Float64.nan

/-- Modelled from the spec: `funcs::std` (not under `src/`), the square
root of `funcs::variance`. -/
def funcsStd (ys : List ℚ) (ddof : ℚ) : Option Float64 :=
  (funcsVariance ys ddof).map fsqrt

/-- Modelled from the spec: `stats::median` (not under `src/`): sort a
copy; an even count averages the two central elements, an odd count takes
the middle one; `None` on an empty slice. -/
def statsMedian (ys : List ℚ) : Option Float64 :=
  let sorted := ys.mergeSort (fun a b => decide (a ≤ b))
  let n := sorted.length
  if n = 0 then Option.none
  else if n % 2 = 0 then
    some (Float64.num ((sorted.getD (n / 2 - 1) 0 + sorted.getD (n / 2) 0) / 2))
  else
    some (Float64.num (sorted.getD (n / 2) 0))

/-- Per window body of `Rolling::var` (`rolling.rs` lines 132..138):
`funcs::variance` on the slice, erroring on `None`. -/
def varAgg (ddof : ℚ) (ys : List ℚ) : Except String Float64 :=
  match funcsVariance ys ddof with
  | some v => Except.ok v
  | Option.none => Except.error "Failed to calculate variance for window"

/-- Per window body of `Rolling::std` (`rolling.rs` lines 160..166):
`funcs::std` on the slice, erroring on `None`. -/
def stdAgg (ddof : ℚ) (ys : List ℚ) : Except String Float64 :=
  match funcsStd ys ddof with
  | some v => Except.ok v
  | Option.none => Except.error "Failed to calculate standard deviation for window"

/-- Per window body of `Rolling::median` (`rolling.rs` lines 186..194):
`stats::median` on the slice, erroring on `None`. -/
def medianAgg (ys : List ℚ) : Except String Float64 :=
  match statsMedian ys with
  | some v => Except.ok v
  | Option.none => Except.error "Failed to compute median for window"

/-- Per window body of `Rolling::min` (`rolling.rs` lines 214..218):
`funcs::min` on the slice (modelled from the spec as the list minimum),
cast to f64, erroring on `None`. -/
def minAgg (ys : List ℚ) : Except String Float64 :=
  match ys.min? with
  | some m => Except.ok (Float64.num m)
  | Option.none => Except.error "Failed to calculate min for window"

/-- Per window body of `Rolling::max` (`rolling.rs` lines 238..242):
`funcs::max` on the slice (modelled from the spec as the list maximum),
cast to f64.  The source's error string for the max window says "min", a
copy of the min body; it is kept verbatim. -/
def maxAgg (ys : List ℚ) : Except String Float64 :=
  match ys.max? with
  | some m => Except.ok (Float64.num m)
  | Option.none => Except.error "Failed to calculate min for window"

/-- Shared shape of every rolling method: the NaN padding followed by the
collected per window aggregates, aborting whole on any window error. -/
def rollingRun (agg : List ℚ → Except String Float64) (r : Rolling) :
    Except String (List Float64) :=
  (collectE ((windows r.window r.series).map agg)).map
    (fun vs => r.nans ++ vs)

/-- `Rolling::sum` (`rolling.rs` lines 94..116). -/
def Rolling.sum (r : Rolling) : Except String (List Float64) :=
  rollingRun sumAgg r

/-- `Rolling::mean` (`rolling.rs` lines 69..91). -/
def Rolling.mean (r : Rolling) : Except String (List Float64) :=
  rollingRun meanAgg r

/-- `Rolling::var` (`rolling.rs` lines 121..143). -/
def Rolling.var (r : Rolling) (ddof : ℚ) : Except String (List Float64) :=
  rollingRun (varAgg ddof) r

/-- `Rolling::std` (`rolling.rs` lines 149..171). -/
def Rolling.std (r : Rolling) (ddof : ℚ) : Except String (List Float64) :=
  rollingRun (stdAgg ddof) r

/-- `Rolling::median` (`rolling.rs` lines 174..199). -/
def Rolling.median (r : Rolling) : Except String (List Float64) :=
  rollingRun medianAgg r

/-- `Rolling::min` (`rolling.rs` lines 202..223). -/
def Rolling.min (r : Rolling) : Except String (List Float64) :=
  rollingRun minAgg r

/-- `Rolling::max` (`rolling.rs` lines 226..247). -/
def Rolling.max (r : Rolling) : Except String (List Float64) :=
  rollingRun maxAgg r

/-- The rolling window contract of the spec, for one aggregate kind: the
construction succeeds, the run succeeds, the output has the source's
length, the first `w − 1` entries are NaN, and the entry at each position
`i ≥ w − 1` is the direct aggregate of exactly the contiguous source slice
`[i − w + 1, i]` (written `(xs.drop (i + 1 - w)).take w`). -/
def rollSpec (roll : Rolling → Except String (List Float64))
    (agg : List ℚ → Except String Float64) (w : Nat) (xs : List ℚ) : Prop :=
  ∃ r out, Rolling.new w xs = some r ∧ roll r = Except.ok out ∧
    out.length = xs.length ∧
    (∀ i, i < w - 1 → out[i]? = some Float64.nan) ∧
    (∀ i, w - 1 ≤ i → i < xs.length →
      out[i]? = (agg ((xs.drop (i + 1 - w)).take w)).toOption)

/-!
Theorems for the frozen claims.
-/

/-- C8: for every series `S`, handing `S` to foreign managed memory with
`into_raw` and reclaiming it with `from_raw` yields a series equal to the
original `S`; the ownership round trip preserves full equality. -/
theorem into_raw_from_raw_roundtrip :
    ∀ s : Series, Series.from_raw (Series.into_raw s) = s :=
  fun _ => rfl

/-- C9: `append(S, v)` inserts `v` at the end (readable at index `len(S)`),
increases the length by exactly one, and leaves the pre-existing elements,
the name, and the cached dtype unchanged. -/
theorem append_spec (s : Series) (v : DataElement) :
    (Series.append s v).len = s.len + 1 ∧
    (Series.append s v).values[s.len]? = some v ∧
    (Series.append s v).values.take s.len = s.values ∧
    (Series.append s v).name = s.name ∧
    (Series.append s v).dtypeQ = s.dtypeQ := by
  refine ⟨?_, ?_, ?_, rfl, rfl⟩
  · simp [Series.append, Series.len]
  · exact List.getElem?_concat_length s.values v
  · exact List.take_left s.values [v]

/-- C10: constructing a `Rolling` with window size 0 is not rejected with a
recoverable error: the `0..window - 1` range underflows the unsigned window
size and the construction panics (modelled as `Option.none`), while every
window size of at least 1 constructs successfully. -/
theorem rolling_new_zero_window_panics :
    (∀ xs : List ℚ, Rolling.new 0 xs = Option.none) ∧
    (∀ (w : Nat) (xs : List ℚ), 1 ≤ w → (Rolling.new w xs).isSome = true) := by
  constructor
  · intro xs; rfl
  · intro w xs hw
    have hne : w ≠ 0 := by omega
    simp [Rolling.new, hne]

/-- Witness for C10: the construction panics at window 0 and succeeds at
window 1 on the empty source. -/
theorem rolling_new_zero_window_panics_witness :
    Rolling.new 0 ([] : List ℚ) = Option.none ∧
    (Rolling.new 1 ([] : List ℚ)).isSome = true :=
  ⟨rolling_new_zero_window_panics.1 [],
   rolling_new_zero_window_panics.2 1 [] (by decide)⟩

/-- C1 (code bug): `astype` to an integer dtype on the series
`[F64 1.0, STRING "x"]` converts the first element in place, then aborts on
the string, returning the error while leaving the prefix `[I64 1]`
converted and the rest untouched — the series is mutated, contradicting the
all-or-nothing requirement (the cached dtype alone is left unchanged). -/
theorem astype_partial_mutation_on_failure :
    Series.astype
        ⟨Option.none, [DataElement.F64 (Float64.num 1), DataElement.STRING "x"],
          Option.none⟩ DType.I64 =
      (⟨Option.none, [DataElement.I64 1, DataElement.STRING "x"], Option.none⟩,
        some "Cannot convert Float NaN to Integer type") ∧
    [DataElement.I64 1, DataElement.STRING "x"] ≠
      [DataElement.F64 (Float64.num 1), DataElement.STRING "x"] := by
  constructor
  · decide
  · decide

/-- C2 (code bug): `mean` on the empty series does not fail with an "empty
series" error: the code always returns `Ok(sum / len)`, which at length
zero is `Ok(0/0)`, the NaN value; moreover `mean` never returns an error on
any series. -/
theorem mean_empty_series_ok_nan :
    Series.mean ⟨Option.none, [], Option.none⟩ = Except.ok Float64.nan ∧
    ∀ s : Series, (Series.mean s).isOk = true := by
  constructor
  · simp [Series.mean, Series.sum, Series.len, fdiv, float64_zero_def]
  · intro s; rfl

/-- An integer target rejects a text or NaN element with the source's
error string. -/
theorem convertElem_int_bad {d : DType} (hd : d = DType.I32 ∨ d = DType.I64)
    {v : DataElement} (hbad : v.dtype = DType.STRING ∨ v.is_nan = true) :
    convertElem d v = Except.error "Cannot convert Float NaN to Integer type" := by
  have hcond : ((v.dtype == DType.STRING) || v.is_nan) = true := by
    rcases hbad with h | h
    · simp [h]
    · simp [h]
  rcases hd with h | h <;> subst h <;> simp [convertElem, hcond]

/-- The conversion loop reports an error whenever some element of the
vector is text or NaN and the target is an integer dtype. -/
theorem astypeGo_snd_of_mem_bad {d : DType} (hd : d = DType.I32 ∨ d = DType.I64) :
    ∀ l : List DataElement,
      (∃ v ∈ l, v.dtype = DType.STRING ∨ v.is_nan = true) →
      (astypeGo d l).2 ≠ Option.none := by
  intro l
  induction l with
  | nil =>
      rintro ⟨v, hv, _⟩
      cases hv
  | cons x xs ih =>
      rintro ⟨v, hv, hbad⟩
      rcases List.mem_cons.mp hv with rfl | hvxs
      · simp [astypeGo, convertElem_int_bad hd hbad]
      · cases hcx : convertElem d x with
        | error msg => simp [astypeGo, hcx]
        | ok w =>
            have hrec := ih ⟨v, hvxs, hbad⟩
            simpa [astypeGo, hcx] using hrec

/-- C3: whenever `astype(S, T)` succeeds, a subsequent dtype query returns
`Some(T)`; and `astype` to an integer dtype (I32 or I64) always fails when
some element of `S` is text or a float NaN. -/
theorem astype_roundtrip_and_integer_failure (s : Series) (d : DType) :
    ((Series.astype s d).2 = Option.none →
      (Series.astype s d).1.dtypeQ = some d) ∧
    ((d = DType.I32 ∨ d = DType.I64) →
      (∃ v ∈ s.values, v.dtype = DType.STRING ∨ v.is_nan = true) →
      (Series.astype s d).2 ≠ Option.none) := by
  constructor
  · intro h
    cases hgo : (astypeGo d s.values).2 with
    | none => simp [Series.astype, hgo, Series.dtypeQ]
    | some msg => simp [Series.astype, hgo] at h
  · intro hd hex
    have hgo := astypeGo_snd_of_mem_bad hd s.values hex
    cases hgo2 : (astypeGo d s.values).2 with
    | none => exact absurd hgo2 hgo
    | some msg => simp [Series.astype, hgo2]

/-- Witness for C3: on the one element text series, coercion to F64
succeeds and caches dtype F64, while coercion to I64 fails. -/
theorem astype_roundtrip_and_integer_failure_witness :
    (Series.astype ⟨Option.none, [DataElement.STRING "h"], Option.none⟩
        DType.F64).1.dtypeQ = some DType.F64 ∧
    (Series.astype ⟨Option.none, [DataElement.STRING "h"], Option.none⟩
        DType.I64).2 ≠ Option.none :=
  ⟨(astype_roundtrip_and_integer_failure
      ⟨Option.none, [DataElement.STRING "h"], Option.none⟩ DType.F64).1 (by decide),
   (astype_roundtrip_and_integer_failure
      ⟨Option.none, [DataElement.STRING "h"], Option.none⟩ DType.I64).2
     (Or.inr rfl) ⟨DataElement.STRING "h", by decide, Or.inl rfl⟩⟩

/-- Elementwise characterization of the vector comparison performed by the
derived `PartialEq` of `Vec<DataElement>`. -/
theorem listPeq_iff (xs ys : List DataElement) :
    listPeq xs ys = true ↔
      (xs.length = ys.length ∧
        ∀ i (h1 : i < xs.length) (h2 : i < ys.length),
          DataElement.peq (xs.get ⟨i, h1⟩) (ys.get ⟨i, h2⟩) = true) := by
  induction xs generalizing ys with
  | nil =>
      cases ys with
      | nil => simp [listPeq]
      | cons y ys => simp [listPeq]
  | cons x xs ih =>
      cases ys with
      | nil => simp [listPeq]
      | cons y ys =>
          rw [listPeq, Bool.and_eq_true, ih]
          constructor
          · rintro ⟨hxy, hlen, hall⟩
            refine ⟨by simpa using hlen, ?_⟩
            intro i h1 h2
            cases i with
            | zero => exact hxy
            | succ n =>
                exact hall n (by simpa using h1) (by simpa using h2)
          · rintro ⟨hlen, hall⟩
            refine ⟨hall 0 (by simp) (by simp), by simpa using hlen, ?_⟩
            intro i h1 h2
            exact hall (i + 1) (by simpa using h1) (by simpa using h2)

/-- C4 counterexample: two series whose ordered element sequences are
element-wise equal (they are the same vector) but whose names differ are
unequal under the derived `PartialEq`, so the name does play a role. -/
theorem series_peq_name_counterexample :
    listPeq [DataElement.I64 1] [DataElement.I64 1] = true ∧
    Series.peq ⟨some "a", [DataElement.I64 1], Option.none⟩
        ⟨Option.none, [DataElement.I64 1], Option.none⟩ = false := by
  constructor
  · decide
  · decide

/-- C4 amended: the derived equality compares every field, so `A` equals
`B` iff the names are equal, the cached dtypes are equal, and the ordered
element sequences are element-wise equal (under the element comparison, on
which a NaN is unequal to everything). -/
theorem series_peq_iff_all_fields (a b : Series) :
    Series.peq a b = true ↔
      (a.name = b.name ∧ a.dtype = b.dtype ∧
        a.values.length = b.values.length ∧
        ∀ i (h1 : i < a.values.length) (h2 : i < b.values.length),
          DataElement.peq (a.values.get ⟨i, h1⟩) (b.values.get ⟨i, h2⟩) = true) := by
  rw [Series.peq, Bool.and_eq_true, Bool.and_eq_true, listPeq_iff]
  constructor
  · rintro ⟨⟨hname, hvals⟩, hdtype⟩
    exact ⟨by simpa using hname, by simpa using hdtype, hvals⟩
  · rintro ⟨hname, hdtype, hvals⟩
    exact ⟨⟨by simpa using hname, hvals⟩, by simpa using hdtype⟩

/-- C6: `sum` first discards every string dtype element and every NaN, then
folds ordinary addition over the converted survivors; when nothing survives
the filtering the fold yields the additive identity, zero, not an error. -/
theorem sum_filter_fold_spec {α : Type} [AddMonoid α] (conv : DataElement → α)
    (s : Series) :
    Series.sum conv s =
      ((s.values.filter
          (fun v => !(v.dtype == DType.STRING) && !v.is_nan)).map conv).sum ∧
    ((∀ v ∈ s.values, v.dtype = DType.STRING ∨ v.is_nan = true) →
      Series.sum conv s = 0) := by
  have hmain : Series.sum conv s =
      ((s.values.filter
          (fun v => !(v.dtype == DType.STRING) && !v.is_nan)).map conv).sum := by
    rw [Series.sum, List.filter_filter, List.sum_eq_foldl,
      List.filter_congr
        (fun v _ => Bool.and_comm (!v.is_nan) (!(v.dtype == DType.STRING)))]
  refine ⟨hmain, ?_⟩
  intro hall
  rw [hmain]
  have hnil : s.values.filter
      (fun v => !(v.dtype == DType.STRING) && !v.is_nan) = [] := by
    rw [List.filter_eq_nil_iff]
    intro v hv
    rcases hall v hv with h | h
    · simp [h]
    · simp [h]
  rw [hnil]
  simp

/-- Witness for C6: summing a series holding only a string and a NaN (all
elements discarded) yields zero. -/
theorem sum_filter_fold_spec_witness :
    Series.sum (α := Float64) toF64
      ⟨Option.none, [DataElement.STRING "x", DataElement.F64 Float64.nan],
        Option.none⟩ = 0 :=
  (sum_filter_fold_spec toF64
      ⟨Option.none, [DataElement.STRING "x", DataElement.F64 Float64.nan],
        Option.none⟩).2 (by decide)

/-- C7: on a non-empty series `min` returns the least and `max` the
greatest converted element (tied extrema are equal values, so the value the
first occurrence holds is what is returned); on the empty series both fail
with an error. -/
theorem min_max_spec (conv : DataElement → Int) (s : Series) :
    (s.values = [] →
      Series.min conv s =
        Except.error "Unable to find minimum of values, perhaps values is empty?" ∧
      Series.max conv s =
        Except.error "Unable to find maximum of values, perhaps values is empty?") ∧
    (∀ m, Series.min conv s = Except.ok m →
      m ∈ s.values.map conv ∧ ∀ v ∈ s.values.map conv, m ≤ v) ∧
    (∀ m, Series.max conv s = Except.ok m →
      m ∈ s.values.map conv ∧ ∀ v ∈ s.values.map conv, v ≤ m) ∧
    (s.values ≠ [] →
      (Series.min conv s).isOk = true ∧ (Series.max conv s).isOk = true) := by
  refine ⟨?_, ?_, ?_, ?_⟩
  · intro h
    constructor
    · simp [Series.min, h]
    · simp [Series.max, h]
  · intro m hm
    rw [Series.min] at hm
    cases hmin : (s.values.map conv).min? with
    | none => rw [hmin] at hm; cases hm
    | some k =>
        rw [hmin] at hm
        cases hm
        exact (@List.min?_eq_some_iff Int m _ _
          ⟨fun h1 h2 => le_antisymm h1 h2⟩
          (fun a => le_refl a) (fun a b => min_choice a b)
          (fun _ _ _ => le_min_iff) (s.values.map conv)).mp hmin
  · intro m hm
    rw [Series.max] at hm
    cases hmax : (s.values.map conv).max? with
    | none => rw [hmax] at hm; cases hm
    | some k =>
        rw [hmax] at hm
        cases hm
        exact (@List.max?_eq_some_iff Int m _ _
          ⟨fun h1 h2 => le_antisymm h1 h2⟩
          (fun a => le_refl a) (fun a b => max_choice a b)
          (fun _ _ _ => max_le_iff) (s.values.map conv)).mp hmax
  · intro hne
    cases hv : s.values with
    | nil => exact absurd hv hne
    | cons x xs =>
        constructor
        · simp [Series.min, hv, List.min?, Except.isOk, Except.toBool]
        · simp [Series.max, hv, List.max?, Except.isOk, Except.toBool]

/-- Witness for C7: on the non-empty series `[3, 1, 2]` both `min` and
`max` succeed. -/
theorem min_max_spec_witness :
    (Series.min toI64
        ⟨Option.none,
          [DataElement.I64 3, DataElement.I64 1, DataElement.I64 2],
          Option.none⟩).isOk = true ∧
    (Series.max toI64
        ⟨Option.none,
          [DataElement.I64 3, DataElement.I64 1, DataElement.I64 2],
          Option.none⟩).isOk = true :=
  (min_max_spec toI64
      ⟨Option.none,
        [DataElement.I64 3, DataElement.I64 1, DataElement.I64 2],
        Option.none⟩).2.2.2 (by decide)

/-- The error aborting collection returns `ok vs` exactly when every per
window result was `ok`, with those values in order. -/
theorem collectE_eq_ok_iff {α : Type} (l : List (Except String α)) (vs : List α) :
    collectE l = Except.ok vs ↔ l = vs.map Except.ok := by
  induction l generalizing vs with
  | nil =>
      cases vs with
      | nil => simp [collectE]
      | cons v vs => simp [collectE]
  | cons e rest ih =>
      cases e with
      | error msg =>
          cases vs with
          | nil => simp [collectE]
          | cons v vs => simp [collectE]
      | ok x =>
          constructor
          · intro h
            cases hc : collectE rest with
            | error m =>
                simp only [collectE, hc, Except.map] at h
                exact Except.noConfusion h
            | ok ys =>
                simp only [collectE, hc, Except.map] at h
                cases h
                rw [List.map_cons]
                rw [(ih ys).mp hc]
          · intro h
            cases vs with
            | nil => cases h
            | cons v vs =>
                rw [List.map_cons] at h
                cases h
                simp only [collectE, (ih vs).mpr rfl, Except.map]

/-- A list of fallible results, each of which is known to be `ok`, is the
`ok` image of some value list. -/
theorem exists_ok_list {α : Type} (l : List (Except String α))
    (h : ∀ e ∈ l, ∃ v, e = Except.ok v) :
    ∃ vs : List α, l = vs.map Except.ok := by
  induction l with
  | nil => exact ⟨[], rfl⟩
  | cons e rest ih =>
      obtain ⟨v, hv⟩ := h e (List.mem_cons_self e rest)
      obtain ⟨vs, hvs⟩ := ih (fun x hx => h x (List.mem_cons_of_mem _ hx))
      exact ⟨v :: vs, by rw [hv, hvs, List.map_cons]⟩

/-- Number of windows. -/
theorem windows_length (w : Nat) (xs : List ℚ) :
    (windows w xs).length = xs.length + 1 - w := by
  simp [windows]

/-- The `j`-th window is the length `w` slice starting at `j`. -/
theorem windows_getElem (w : Nat) (xs : List ℚ) (j : Nat)
    (hj : j < xs.length + 1 - w) :
    (windows w xs)[j]? = some ((xs.drop j).take w) := by
  rw [windows, List.getElem?_map, List.getElem?_range hj, Option.map_some']

/-- Every window is non-empty when `1 ≤ w ≤ len`. -/
theorem windows_mem_ne_nil {w : Nat} {xs : List ℚ} (hw : 1 ≤ w)
    (hlen : w ≤ xs.length) {ys : List ℚ} (hys : ys ∈ windows w xs) :
    ys ≠ [] := by
  rw [windows, List.mem_map] at hys
  obtain ⟨j, hj, rfl⟩ := hys
  rw [List.mem_range] at hj
  have hpos : 0 < ((xs.drop j).take w).length := by
    rw [List.length_take, List.length_drop]
    omega
  exact List.length_pos.mp hpos

/-- Core rolling lemma: a rolling run over any per window aggregate that
succeeds on non-empty slices produces the NaN padding followed by exactly
the per slice aggregates. -/
theorem rollingRun_spec (agg : List ℚ → Except String Float64)
    (w : Nat) (xs : List ℚ) (hw : 1 ≤ w) (hlen : w ≤ xs.length)
    (htot : ∀ ys : List ℚ, ys ≠ [] → ∃ v, agg ys = Except.ok v) :
    ∃ out,
      rollingRun agg ⟨w, xs, List.replicate (w - 1) Float64.nan⟩ = Except.ok out ∧
      out.length = xs.length ∧
      (∀ i, i < w - 1 → out[i]? = some Float64.nan) ∧
      (∀ i, w - 1 ≤ i → i < xs.length →
        out[i]? = (agg ((xs.drop (i + 1 - w)).take w)).toOption) := by
  obtain ⟨vs, hvs⟩ := exists_ok_list ((windows w xs).map agg) (by
    intro e he
    rw [List.mem_map] at he
    obtain ⟨ys, hys, rfl⟩ := he
    exact htot ys (windows_mem_ne_nil hw hlen hys))
  have hvslen : vs.length = xs.length + 1 - w := by
    have hlm := congrArg List.length hvs
    rw [List.length_map, List.length_map, windows_length] at hlm
    exact hlm.symm
  have hok : collectE ((windows w xs).map agg) = Except.ok vs :=
    (collectE_eq_ok_iff _ _).mpr hvs
  refine ⟨List.replicate (w - 1) Float64.nan ++ vs, ?_, ?_, ?_, ?_⟩
  · simp [rollingRun, hok, Except.map]
  · rw [List.length_append, List.length_replicate, hvslen]
    omega
  · intro i hi
    rw [List.getElem?_append_left (by rw [List.length_replicate]; omega),
      List.getElem?_replicate]
    simp [hi]
  · intro i h1 h2
    have hj : i - (w - 1) < xs.length + 1 - w := by omega
    have hidx : i + 1 - w = i - (w - 1) := by omega
    rw [List.getElem?_append_right (by rw [List.length_replicate]; omega),
      List.length_replicate, hidx]
    have hmap := congrArg (fun t => t[i - (w - 1)]?) hvs
    simp only [List.getElem?_map] at hmap
    rw [windows_getElem w xs _ hj, Option.map_some'] at hmap
    cases hvj : vs[i - (w - 1)]? with
    | none =>
        rw [hvj, Option.map_none'] at hmap
        exact Option.noConfusion hmap
    | some v =>
        rw [hvj, Option.map_some'] at hmap
        injection hmap with heq
        rw [heq]
        rfl

/-- The rolling sum body succeeds on every window. -/
theorem sumAgg_total (ys : List ℚ) : ∃ v, sumAgg ys = Except.ok v :=
  ⟨Float64.num ys.sum, rfl⟩

/-- The rolling mean body succeeds on every window. -/
theorem meanAgg_total (ys : List ℚ) : ∃ v, meanAgg ys = Except.ok v :=
  ⟨fdiv (Float64.num ys.sum) (Float64.num (ys.length : ℚ)), rfl⟩

/-- The rolling variance body succeeds on every non-empty window. -/
theorem varAgg_total (ddof : ℚ) (ys : List ℚ) (h : ys ≠ []) :
    ∃ v, varAgg ddof ys = Except.ok v := by
  have hne : ys.isEmpty = false := by simpa using h
  exact ⟨_, by simp [varAgg, funcsVariance, hne]; rfl⟩

/-- The rolling standard deviation body succeeds on every non-empty
window. -/
theorem stdAgg_total (ddof : ℚ) (ys : List ℚ) (h : ys ≠ []) :
    ∃ v, stdAgg ddof ys = Except.ok v := by
  have hne : ys.isEmpty = false := by simpa using h
  exact ⟨_, by simp [stdAgg, funcsStd, funcsVariance, hne, Option.map_some']; rfl⟩

/-- The rolling median body succeeds on every non-empty window. -/
theorem medianAgg_total (ys : List ℚ) (h : ys ≠ []) :
    ∃ v, medianAgg ys = Except.ok v := by
  have hl : (ys.mergeSort (fun a b => decide (a ≤ b))).length = ys.length :=
    List.length_mergeSort ys
  have hne0 : ¬ ys.length = 0 := by
    intro h0
    exact h (List.eq_nil_of_length_eq_zero h0)
  by_cases hpar : ys.length % 2 = 0
  · exact ⟨_, by simp [medianAgg, statsMedian, hl, hne0, hpar]; rfl⟩
  · exact ⟨_, by simp [medianAgg, statsMedian, hl, hne0, hpar]; rfl⟩

/-- The rolling min body succeeds on every non-empty window. -/
theorem minAgg_total (ys : List ℚ) (h : ys ≠ []) :
    ∃ v, minAgg ys = Except.ok v := by
  cases ys with
  | nil => exact absurd rfl h
  | cons x xs => exact ⟨_, by simp [minAgg, List.min?]; rfl⟩

/-- The rolling max body succeeds on every non-empty window. -/
theorem maxAgg_total (ys : List ℚ) (h : ys ≠ []) :
    ∃ v, maxAgg ys = Except.ok v := by
  cases ys with
  | nil => exact absurd rfl h
  | cons x xs => exact ⟨_, by simp [maxAgg, List.max?]; rfl⟩

/-- The construction `Rolling::new` at a positive window size. -/
theorem rolling_new_pos {w : Nat} (xs : List ℚ) (hw : 1 ≤ w) :
    Rolling.new w xs =
      some ⟨w, xs, List.replicate (w - 1) Float64.nan⟩ := by
  have hne : w ≠ 0 := by omega
  simp [Rolling.new, hne]

/-- C5: for every source series and window size `w` with `1 ≤ w ≤ len`,
each rolling aggregate (sum, mean, variance, standard deviation, median,
min, max) returns a series of the source's length whose first `w − 1`
entries are NaN and whose entry at each position `i ≥ w − 1` equals the
direct aggregate computed over exactly the contiguous source slice
`[i − w + 1, i]`. -/
theorem rolling_aggregates_spec (w : Nat) (xs : List ℚ) (ddof : ℚ)
    (hw : 1 ≤ w) (hlen : w ≤ xs.length) :
    rollSpec Rolling.sum sumAgg w xs ∧
    rollSpec Rolling.mean meanAgg w xs ∧
    rollSpec (fun r => Rolling.var r ddof) (varAgg ddof) w xs ∧
    rollSpec (fun r => Rolling.std r ddof) (stdAgg ddof) w xs ∧
    rollSpec Rolling.median medianAgg w xs ∧
    rollSpec Rolling.min minAgg w xs ∧
    rollSpec Rolling.max maxAgg w xs := by
  have hnew := rolling_new_pos xs hw
  refine ⟨?_, ?_, ?_, ?_, ?_, ?_, ?_⟩
  · obtain ⟨out, hrun, hp⟩ :=
      rollingRun_spec sumAgg w xs hw hlen (fun ys _ => sumAgg_total ys)
    exact ⟨_, out, hnew, hrun, hp⟩
  · obtain ⟨out, hrun, hp⟩ :=
      rollingRun_spec meanAgg w xs hw hlen (fun ys _ => meanAgg_total ys)
    exact ⟨_, out, hnew, hrun, hp⟩
  · obtain ⟨out, hrun, hp⟩ :=
      rollingRun_spec (varAgg ddof) w xs hw hlen (varAgg_total ddof)
    exact ⟨_, out, hnew, hrun, hp⟩
  · obtain ⟨out, hrun, hp⟩ :=
      rollingRun_spec (stdAgg ddof) w xs hw hlen (stdAgg_total ddof)
    exact ⟨_, out, hnew, hrun, hp⟩
  · obtain ⟨out, hrun, hp⟩ :=
      rollingRun_spec medianAgg w xs hw hlen medianAgg_total
    exact ⟨_, out, hnew, hrun, hp⟩
  · obtain ⟨out, hrun, hp⟩ :=
      rollingRun_spec minAgg w xs hw hlen minAgg_total
    exact ⟨_, out, hnew, hrun, hp⟩
  · obtain ⟨out, hrun, hp⟩ :=
      rollingRun_spec maxAgg w xs hw hlen maxAgg_total
    exact ⟨_, out, hnew, hrun, hp⟩

/-- Witness for C5: the rolling contract instantiated at window 2 over the
source `[1, 2, 3]` with `ddof = 0`, every aggregate kind at once. -/
theorem rolling_aggregates_spec_witness :
    rollSpec Rolling.sum sumAgg 2 [1, 2, 3] ∧
    rollSpec Rolling.mean meanAgg 2 [1, 2, 3] ∧
    rollSpec (fun r => Rolling.var r 0) (varAgg 0) 2 [1, 2, 3] ∧
    rollSpec (fun r => Rolling.std r 0) (stdAgg 0) 2 [1, 2, 3] ∧
    rollSpec Rolling.median medianAgg 2 [1, 2, 3] ∧
    rollSpec Rolling.min minAgg 2 [1, 2, 3] ∧
    rollSpec Rolling.max maxAgg 2 [1, 2, 3] :=
  rolling_aggregates_spec 2 [1, 2, 3] 0 (by decide) (by decide)
